import Mathlib

/-!
Verification of the trpc-uwebsockets adapter against its specification.

The development shallowly embeds the adapter's components:
* the streaming response writer of fetchCompat.ts (uWsSendResponseStreamed),
* the body-ingestion stream of fetchCompat.ts (createBody) and the
  promise-based body reader of utils.ts (getPostBody),
* the request wrapper of utils.ts (extractAndWrapHttpRequest) and the URL
  builder of fetchCompat.ts (createURL),
* the WebSocket subscription multiplexer (applyWSHandler: respond,
  stopSubscription, handleRequest, message, close),
* the response-envelope codec.

Byte chunks are lists of naturals; callback-driven code is rephrased as
explicit state passing over event lists; fallible code returns Except/Option.
-/

namespace TU

/-- A byte chunk on the wire, as the list of its byte values. -/
abbrev Chunk := List Nat

/-! ## Streaming response writer: uWsSendResponseStreamed (fetchCompat.ts)

The source loop is

    if (res.aborted) return;
    res.cork(() => { res.writeStatus(...); headers.forEach(writeHeader); });
    if (fetchRes.body) {
      const reader = fetchRes.body.getReader();
      while (true) {
        const { value, done } = await reader.read();
        if (done) { if (!res.aborted) { res.end(); } return; }
        if (res.aborted) { return; }
        res.cork(() => { res.write(value); });
      }
    } else { res.end(); return; }

The boolean returned by res.write (false on a full send buffer) is discarded
by the source; the model keeps the transport's write reports as the
parameter writeOk so that the discard is visible in the embedding.
-/

/-- One operation performed on the native uWS response object. -/
inductive UwsOp where
  | writeStatus (status : Nat)
  | writeHeader (key value : String)
  | write (chunk : Chunk)
  | endResponse
deriving DecidableEq, Repr

/-- Whether res.aborted reads true at suspension point number i.
The abort flag is set once by the transport; abortFrom is the first
suspension point at which the flag is observed set (none = never). -/
def abortedAt (abortFrom : Option Nat) (i : Nat) : Bool :=
  match abortFrom with
  | none => false
  | some a => a ≤ i

/-- The pump loop of uWsSendResponseStreamed: read a chunk, write it,
ignoring the transport's write report (the source discards the boolean
returned by res.write inside res.cork). Suspension point i + 1 is the
check of res.aborted after the i-th read. -/
def pumpBody (writeOk : Nat → Bool) (abortFrom : Option Nat) :
    List Chunk → Nat → List UwsOp
  | [], i => if abortedAt abortFrom i then [] else [UwsOp.endResponse]
  | c :: rest, i =>
    if abortedAt abortFrom i then []
    else UwsOp.write c :: pumpBody writeOk abortFrom rest (i + 1)

/-- The trace of transport operations performed by uWsSendResponseStreamed
for a response with the given status, headers and body. -/
def uWsSendResponseStreamed (status : Nat) (headers : List (String × String))
    (body : Option (List Chunk)) (writeOk : Nat → Bool)
    (abortFrom : Option Nat) : List UwsOp :=
  if abortedAt abortFrom 0 then []
  else
    UwsOp.writeStatus status :: headers.map (fun kv => UwsOp.writeHeader kv.1 kv.2) ++
      match body with
      | some chunks => pumpBody writeOk abortFrom chunks 1
      | none => [UwsOp.endResponse]

/-- The chunks actually handed to the transport's write call, in order. -/
def writesOf (ops : List UwsOp) : List Chunk :=
  ops.filterMap fun op =>
    match op with
    | UwsOp.write c => some c
    | _ => none

/-- The property claimed of the pump: whenever the transport reports the
i-th write as failed (send buffer full), the very next write retries the
same chunk before any new chunk is pulled from the reader. -/
def retriesFailedChunkBeforeNext (writes : List Chunk) (writeOk : Nat → Bool) : Prop :=
  ∀ i c, writes.get? i = some c → writeOk i = false →
    writes.get? (i + 1) = none ∨ writes.get? (i + 1) = some c

theorem pumpBody_no_abort (writeOk : Nat → Bool) (chunks : List Chunk) (i : Nat) :
    pumpBody writeOk none chunks i = chunks.map UwsOp.write ++ [UwsOp.endResponse] := by
  induction chunks generalizing i with
  | nil => simp [pumpBody, abortedAt]
  | cons c rest ih => simp [pumpBody, abortedAt, ih]

theorem writesOf_map_write_append (chunks : List Chunk) :
    writesOf (chunks.map UwsOp.write ++ [UwsOp.endResponse]) = chunks := by
  induction chunks with
  | nil => rfl
  | cons c rest ih => simpa [writesOf, List.filterMap_cons] using ih

theorem writesOf_cons_writeStatus (s : Nat) (l : List UwsOp) :
    writesOf (UwsOp.writeStatus s :: l) = writesOf l := by
  simp [writesOf, List.filterMap_cons]

theorem writesOf_headers_append (headers : List (String × String)) (l : List UwsOp) :
    writesOf ((headers.map fun kv => UwsOp.writeHeader kv.1 kv.2) ++ l) = writesOf l := by
  induction headers with
  | nil => rfl
  | cons kv rest ih =>
    simp only [List.map_cons, List.cons_append, writesOf, List.filterMap_cons] at ih ⊢
    exact ih

/-- Claim C1, counterexample: with a two-chunk body whose first write the
transport reports as failed, the pump does not retry the failed chunk: the
next write call carries the second chunk. So the claimed pause-and-retry
behaviour is absent from uWsSendResponseStreamed. -/
theorem C1_counterexample :
    ¬ retriesFailedChunkBeforeNext
        (writesOf (uWsSendResponseStreamed 200 []
          (some [[0], [1]]) (fun _ => false) none))
        (fun _ => false) := by
  intro h
  have h0 := h 0 [0] (by decide) rfl
  revert h0
  decide

/-- Claim C1, amended: uWsSendResponseStreamed ignores the transport's
write report entirely. Absent an abort it writes every chunk pulled from
the reader exactly once, in order (so the byte sequence written equals the
byte sequence read, with no chunk dropped or duplicated), and its trace is
the same whatever the transport reports; it never pauses for writability
and never retries a chunk reported as unsent. -/
theorem C1_amended (status : Nat) (headers : List (String × String))
    (chunks : List Chunk) (writeOk writeOk' : Nat → Bool) :
    writesOf (uWsSendResponseStreamed status headers (some chunks) writeOk none) = chunks ∧
    uWsSendResponseStreamed status headers (some chunks) writeOk none =
      uWsSendResponseStreamed status headers (some chunks) writeOk' none := by
  constructor
  · have htrace : uWsSendResponseStreamed status headers (some chunks) writeOk none =
        UwsOp.writeStatus status ::
          ((headers.map fun kv => UwsOp.writeHeader kv.1 kv.2) ++
            (chunks.map UwsOp.write ++ [UwsOp.endResponse])) := by
      simp [uWsSendResponseStreamed, abortedAt, pumpBody_no_abort]
    rw [htrace, writesOf_cons_writeStatus, writesOf_headers_append,
      writesOf_map_write_append]
  · simp [uWsSendResponseStreamed, abortedAt, pumpBody_no_abort]

/-! ## Body ingestion stream: createBody (fetchCompat.ts)

createBody returns a ReadableStream whose start handler registers

    const onData = (ab, isLast) => {
      if (size == 0 && ab.byteLength == 0 && isLast) { onEnd(); return; }
      size += ab.byteLength;
      if (!opts.maxBodySize || size <= opts.maxBodySize) {
        controller.enqueue(new Uint8Array(ab));
        if (isLast) { onEnd(); }
        return;
      }
      controller.error(new TRPCError({ code: PAYLOAD_TOO_LARGE }));
      hasClosed = true;
    };
    const onEnd = () => {
      if (hasClosed) { return; }
      hasClosed = true;
      controller.close();
    };
    res.onData(onData);
    res.onAborted(onEnd);

The stream controller follows the WHATWG semantics relevant here: close and
error change the stream state only while it is readable (erroring or closing
an already-terminated stream does not reach the consumer a second time), and
a chunk is delivered to the consumer only while the stream is readable.
The model counts the effective (state-changing) close and error transitions.
-/

/-- A transport event delivered to the callbacks registered by createBody:
a data chunk with its final-chunk marker, or the abort callback firing. -/
inductive BodyEvent where
  | data (bytes : Chunk) (isLast : Bool)
  | aborted
deriving DecidableEq, Repr

/-- Consumer-visible state of the ReadableStream. -/
inductive StreamState where
  | readable
  | closed
  | errored (code : String)
deriving DecidableEq, Repr

/-- The stream controller: its state, the chunks delivered to the consumer,
and how many effective close / error transitions happened. -/
structure ControllerLog where
  state : StreamState
  delivered : List Chunk
  closeCount : Nat
  errorCount : Nat
deriving DecidableEq, Repr

def ctrlEnqueue (c : ControllerLog) (bytes : Chunk) : ControllerLog :=
  match c.state with
  | StreamState.readable => { c with delivered := c.delivered ++ [bytes] }
  | _ => c

def ctrlClose (c : ControllerLog) : ControllerLog :=
  match c.state with
  | StreamState.readable =>
    { c with state := StreamState.closed, closeCount := c.closeCount + 1 }
  | _ => c

def ctrlError (c : ControllerLog) (code : String) : ControllerLog :=
  match c.state with
  | StreamState.readable =>
    { c with state := StreamState.errored code, errorCount := c.errorCount + 1 }
  | _ => c

/-- The mutable state captured by createBody's closures: the running size,
the hasClosed flag and the controller. -/
structure BodyState where
  size : Nat
  hasClosed : Bool
  ctrl : ControllerLog
deriving DecidableEq, Repr

/-- The JavaScript condition !opts.maxBodySize || size <= opts.maxBodySize:
a null or zero maxBodySize is falsy, hence no limit. -/
def maxOk (maxBodySize : Option Nat) (size : Nat) : Bool :=
  match maxBodySize with
  | none => true
  | some m => m == 0 || size ≤ m

/-- The onEnd closure of createBody. -/
def onEnd (st : BodyState) : BodyState :=
  if st.hasClosed then st
  else { st with hasClosed := true, ctrl := ctrlClose st.ctrl }

/-- The onData closure of createBody. -/
def onData (maxBodySize : Option Nat) (st : BodyState) (bytes : Chunk)
    (isLast : Bool) : BodyState :=
  if st.size == 0 && bytes.length == 0 && isLast then onEnd st
  else
    let st' : BodyState := { st with size := st.size + bytes.length }
    if maxOk maxBodySize st'.size then
      let st'' : BodyState := { st' with ctrl := ctrlEnqueue st'.ctrl bytes }
      if isLast then onEnd st'' else st''
    else
      { st' with ctrl := ctrlError st'.ctrl "PAYLOAD_TOO_LARGE", hasClosed := true }

/-- Run the createBody callbacks over a sequence of transport events. -/
def runBody (maxBodySize : Option Nat) : BodyState → List BodyEvent → BodyState
  | st, [] => st
  | st, BodyEvent.data bytes isLast :: rest =>
    runBody maxBodySize (onData maxBodySize st bytes isLast) rest
  | st, BodyEvent.aborted :: rest => runBody maxBodySize (onEnd st) rest

def initBody : BodyState :=
  { size := 0, hasClosed := false,
    ctrl := { state := StreamState.readable, delivered := [], closeCount := 0,
              errorCount := 0 } }

/-- The event sequence of a body delivered as the given chunks in order,
only the last one marked final (uWS delivers exactly one final chunk). -/
def chunkEvents : List Chunk → List BodyEvent
  | [] => []
  | [c] => [BodyEvent.data c true]
  | c :: rest => BodyEvent.data c false :: chunkEvents rest

/-- Cumulative byte size of the first i chunks. -/
def cumul (cs : List Chunk) (i : Nat) : Nat :=
  ((cs.take i).map List.length).sum

theorem chunkEvents_cons (c : Chunk) (rest : List Chunk) :
    chunkEvents (c :: rest) = BodyEvent.data c rest.isEmpty :: chunkEvents rest := by
  cases rest <;> rfl

theorem cumul_zero (cs : List Chunk) : cumul cs 0 = 0 := rfl

theorem cumul_cons_succ (c : Chunk) (rest : List Chunk) (j : Nat) :
    cumul (c :: rest) (j + 1) = c.length + cumul rest j := by
  simp [cumul]

theorem ctrlError_not_readable (c : ControllerLog) (code : String)
    (h : c.state ≠ StreamState.readable) : ctrlError c code = c := by
  obtain ⟨s, d, cc, ec⟩ := c
  cases s with
  | readable => exact absurd rfl h
  | closed => rfl
  | errored e => rfl

theorem ctrlError_readable (c : ControllerLog) (code : String)
    (h : c.state = StreamState.readable) :
    ctrlError c code =
      { c with state := StreamState.errored code, errorCount := c.errorCount + 1 } := by
  obtain ⟨s, d, cc, ec⟩ := c
  cases s with
  | readable => rfl
  | closed => exact absurd h (by simp)
  | errored e => exact absurd h (by simp)

theorem ctrlClose_readable (c : ControllerLog)
    (h : c.state = StreamState.readable) :
    ctrlClose c =
      { c with state := StreamState.closed, closeCount := c.closeCount + 1 } := by
  obtain ⟨s, d, cc, ec⟩ := c
  cases s with
  | readable => rfl
  | closed => exact absurd h (by simp)
  | errored e => exact absurd h (by simp)

theorem ctrlEnqueue_readable (c : ControllerLog) (bytes : Chunk)
    (h : c.state = StreamState.readable) :
    ctrlEnqueue c bytes = { c with delivered := c.delivered ++ [bytes] } := by
  obtain ⟨s, d, cc, ec⟩ := c
  cases s with
  | readable => rfl
  | closed => exact absurd h (by simp)
  | errored e => exact absurd h (by simp)

theorem ctrlEnqueue_state (c : ControllerLog) (bytes : Chunk) :
    (ctrlEnqueue c bytes).state = c.state ∧
    (ctrlEnqueue c bytes).closeCount = c.closeCount ∧
    (ctrlEnqueue c bytes).errorCount = c.errorCount := by
  obtain ⟨s, d, cc, ec⟩ := c
  cases s <;> exact ⟨rfl, rfl, rfl⟩

theorem runBody_cons_data (m : Option Nat) (st : BodyState) (bytes : Chunk)
    (isLast : Bool) (rest : List BodyEvent) :
    runBody m st (BodyEvent.data bytes isLast :: rest) =
      runBody m (onData m st bytes isLast) rest := rfl

theorem runBody_cons_abort (m : Option Nat) (st : BodyState) (rest : List BodyEvent) :
    runBody m st (BodyEvent.aborted :: rest) = runBody m (onEnd st) rest := rfl

/-- Once the body errored past the limit, later chunks keep taking the error
branch, which no longer reaches the (already errored) controller. -/
theorem runBody_stuck (m : Nat) (hm : m ≠ 0) :
    ∀ (cs : List Chunk) (st : BodyState), m < st.size →
      st.ctrl.state ≠ StreamState.readable →
      (runBody (some m) st (chunkEvents cs)).ctrl = st.ctrl := by
  intro cs
  induction cs with
  | nil => intro st _ _; rfl
  | cons c rest ih =>
    intro st hsize hstate
    rw [chunkEvents_cons, runBody_cons_data]
    have hne : (st.size == 0) = false := by
      have : st.size ≠ 0 := by omega
      simpa using this
    have hmaxOk : maxOk (some m) (st.size + c.length) = false := by
      have h1 : (m == 0) = false := by simpa using hm
      have h2 : decide (st.size + c.length ≤ m) = false := by
        have : ¬ st.size + c.length ≤ m := by omega
        simpa using this
      simp [maxOk, h1, h2]
    have hstep : onData (some m) st c rest.isEmpty =
        { st with size := st.size + c.length,
                  ctrl := ctrlError st.ctrl "PAYLOAD_TOO_LARGE",
                  hasClosed := true } := by
      simp [onData, hne, hmaxOk]
    have herr : ctrlError st.ctrl "PAYLOAD_TOO_LARGE" = st.ctrl :=
      ctrlError_not_readable st.ctrl "PAYLOAD_TOO_LARGE" hstate
    rw [hstep, herr]
    exact ih _ (by simpa using Nat.lt_of_lt_of_le hsize (Nat.le_add_right _ _)) hstate

/-- The first chunk pushing the cumulative size past the limit errors the
stream without delivering that chunk; all earlier chunks were delivered. -/
theorem runBody_exceeds (m : Nat) (hm : m ≠ 0) :
    ∀ (cs : List Chunk) (st : BodyState) (i : Nat),
      st.ctrl.state = StreamState.readable →
      i < cs.length →
      st.size + cumul cs i ≤ m →
      m < st.size + cumul cs (i + 1) →
      (runBody (some m) st (chunkEvents cs)).ctrl.delivered =
          st.ctrl.delivered ++ cs.take i ∧
      (runBody (some m) st (chunkEvents cs)).ctrl.state =
          StreamState.errored "PAYLOAD_TOO_LARGE" := by
  intro cs
  induction cs with
  | nil => intro st i _ hi _ _; exact absurd hi (by simp)
  | cons c rest ih =>
    intro st i hstate hi hle hgt
    rw [chunkEvents_cons, runBody_cons_data]
    cases i with
    | zero =>
      rw [cumul_zero] at hle
      rw [cumul_cons_succ, cumul_zero] at hgt
      have hclen : 0 < c.length := by omega
      have hlenne : (c.length == 0) = false := by
        have : c.length ≠ 0 := by omega
        simpa using this
      have hmaxOk : maxOk (some m) (st.size + c.length) = false := by
        have h1 : (m == 0) = false := by simpa using hm
        have h2 : decide (st.size + c.length ≤ m) = false := by
          have : ¬ st.size + c.length ≤ m := by omega
          simpa using this
        simp [maxOk, h1, h2]
      have hstep : onData (some m) st c rest.isEmpty =
          { st with size := st.size + c.length,
                    ctrl := ctrlError st.ctrl "PAYLOAD_TOO_LARGE",
                    hasClosed := true } := by
        simp [onData, hlenne, hmaxOk]
      have herr := ctrlError_readable st.ctrl "PAYLOAD_TOO_LARGE" hstate
      have hstuck := runBody_stuck m hm rest
        { st with size := st.size + c.length,
                  ctrl := ctrlError st.ctrl "PAYLOAD_TOO_LARGE",
                  hasClosed := true }
        (by simpa using hgt)
        (by rw [herr]; simp)
      rw [hstep, hstuck, herr]
      exact ⟨by simp, rfl⟩
    | succ j =>
      rw [cumul_cons_succ] at hle
      rw [cumul_cons_succ] at hgt
      have hj : j < rest.length := by simpa using hi
      have hrest_ne : rest ≠ [] := by
        intro hnil; rw [hnil] at hj; simp at hj
      have hlast : rest.isEmpty = false := by
        cases rest with
        | nil => exact absurd rfl hrest_ne
        | cons a b => rfl
      have hmaxOk : maxOk (some m) (st.size + c.length) = true := by
        have h2 : st.size + c.length ≤ m := by omega
        simp [maxOk, h2]
      have hstep : onData (some m) st c rest.isEmpty =
          { st with size := st.size + c.length,
                    ctrl := ctrlEnqueue st.ctrl c } := by
        simp [onData, hlast, hmaxOk]
      have hq := ctrlEnqueue_state st.ctrl c
      have hqd : (ctrlEnqueue st.ctrl c).delivered = st.ctrl.delivered ++ [c] := by
        rw [ctrlEnqueue_readable st.ctrl c hstate]
      have hih := ih { st with size := st.size + c.length, ctrl := ctrlEnqueue st.ctrl c }
        j (by rw [hq.1]; exact hstate) hj (by simp; omega) (by simp; omega)
      rw [hstep]
      refine ⟨?_, hih.2⟩
      rw [hih.1, hqd]
      simp

/-- Claim C3: with a configured (nonzero) maximum body size, the first chunk
whose cumulative size exceeds the limit terminates the body stream with a
PAYLOAD_TOO_LARGE failure, and the consumer receives exactly the chunks
before it — the offending chunk's bytes are never delivered. -/
theorem C3_first_exceeding_chunk_errors (cs : List Chunk) (m i : Nat)
    (hm : m ≠ 0) (hi : i < cs.length) (hle : cumul cs i ≤ m)
    (hgt : m < cumul cs (i + 1)) :
    (runBody (some m) initBody (chunkEvents cs)).ctrl.delivered = cs.take i ∧
    (runBody (some m) initBody (chunkEvents cs)).ctrl.state =
      StreamState.errored "PAYLOAD_TOO_LARGE" := by
  have h := runBody_exceeds m hm cs initBody i rfl hi
    (by simpa [initBody] using hle) (by simpa [initBody] using hgt)
  simpa [initBody] using h

/-- Claim C3, witness: three 100-byte chunks under maxBodySize = 250 deliver
chunk 1 and chunk 2 and then fail on chunk 3. -/
theorem C3_witness :
    (runBody (some 250) initBody (chunkEvents
        [List.replicate 100 0, List.replicate 100 1, List.replicate 100 2])).ctrl.delivered =
      [List.replicate 100 0, List.replicate 100 1] ∧
    (runBody (some 250) initBody (chunkEvents
        [List.replicate 100 0, List.replicate 100 1, List.replicate 100 2])).ctrl.state =
      StreamState.errored "PAYLOAD_TOO_LARGE" := by
  have h := C3_first_exceeding_chunk_errors
    [List.replicate 100 0, List.replicate 100 1, List.replicate 100 2] 250 2
    (by decide) (by decide) (by decide) (by decide)
  simpa using h

/-! ### Idempotent termination (C4) -/

/-- Controller sanity: effective terminal transitions never exceed one, and
none has happened while the stream is still readable. -/
def ctrlTerminalInv (c : ControllerLog) : Prop :=
  (c.state = StreamState.readable → c.closeCount = 0 ∧ c.errorCount = 0) ∧
  c.closeCount + c.errorCount ≤ 1

theorem ctrlTerminalInv_enqueue (c : ControllerLog) (bytes : Chunk)
    (h : ctrlTerminalInv c) : ctrlTerminalInv (ctrlEnqueue c bytes) := by
  obtain ⟨s, d, cc, ec⟩ := c
  cases s <;> exact h

theorem ctrlTerminalInv_close (c : ControllerLog)
    (h : ctrlTerminalInv c) : ctrlTerminalInv (ctrlClose c) := by
  obtain ⟨s, d, cc, ec⟩ := c
  cases s with
  | readable =>
    obtain ⟨h1, _⟩ := h
    obtain ⟨hc, he⟩ := h1 rfl
    simp only [ctrlTerminalInv, ctrlClose] at *
    exact ⟨fun hr => by exact absurd hr (by simp), by omega⟩
  | closed => exact h
  | errored e => exact h

theorem ctrlTerminalInv_error (c : ControllerLog) (code : String)
    (h : ctrlTerminalInv c) : ctrlTerminalInv (ctrlError c code) := by
  obtain ⟨s, d, cc, ec⟩ := c
  cases s with
  | readable =>
    obtain ⟨h1, _⟩ := h
    obtain ⟨hc, he⟩ := h1 rfl
    simp only [ctrlTerminalInv, ctrlError] at *
    exact ⟨fun hr => by exact absurd hr (by simp), by omega⟩
  | closed => exact h
  | errored e => exact h

theorem ctrlTerminalInv_onEnd (st : BodyState)
    (h : ctrlTerminalInv st.ctrl) : ctrlTerminalInv (onEnd st).ctrl := by
  unfold onEnd
  by_cases hc : st.hasClosed
  · simp [hc, h]
  · simp [hc]
    exact ctrlTerminalInv_close st.ctrl h

theorem ctrlTerminalInv_onData (m : Option Nat) (st : BodyState)
    (bytes : Chunk) (isLast : Bool)
    (h : ctrlTerminalInv st.ctrl) :
    ctrlTerminalInv (onData m st bytes isLast).ctrl := by
  simp only [onData]
  split
  · exact ctrlTerminalInv_onEnd st h
  · split
    · split
      · exact ctrlTerminalInv_onEnd _ (ctrlTerminalInv_enqueue _ _ h)
      · exact ctrlTerminalInv_enqueue _ _ h
    · exact ctrlTerminalInv_error _ _ h

theorem ctrlTerminalInv_runBody (m : Option Nat) :
    ∀ (evs : List BodyEvent) (st : BodyState), ctrlTerminalInv st.ctrl →
      ctrlTerminalInv (runBody m st evs).ctrl := by
  intro evs
  induction evs with
  | nil => intro st h; exact h
  | cons e rest ih =>
    intro st h
    cases e with
    | data bytes isLast =>
      rw [runBody_cons_data]
      exact ih _ (ctrlTerminalInv_onData m st bytes isLast h)
    | aborted =>
      rw [runBody_cons_abort]
      exact ih _ (ctrlTerminalInv_onEnd st h)

theorem onEnd_hasClosed (st : BodyState) : (onEnd st).hasClosed = true := by
  unfold onEnd
  split <;> simp_all

theorem onData_hasClosed_mono (m : Option Nat) (st : BodyState)
    (bytes : Chunk) (isLast : Bool) (h : st.hasClosed = true) :
    (onData m st bytes isLast).hasClosed = true := by
  simp only [onData]
  split
  · exact onEnd_hasClosed st
  · split
    · split
      · exact onEnd_hasClosed _
      · exact h
    · rfl

theorem runBody_hasClosed_mono (m : Option Nat) :
    ∀ (evs : List BodyEvent) (st : BodyState), st.hasClosed = true →
      (runBody m st evs).hasClosed = true := by
  intro evs
  induction evs with
  | nil => intro st h; exact h
  | cons e rest ih =>
    intro st h
    cases e with
    | data bytes isLast =>
      rw [runBody_cons_data]
      exact ih _ (onData_hasClosed_mono m st bytes isLast h)
    | aborted =>
      rw [runBody_cons_abort]
      exact ih _ (onEnd_hasClosed st)

/-- The abort callback registered by createBody routes to onEnd, so after
any run containing an abort event the hasClosed flag is set. -/
theorem runBody_aborted_hasClosed (m : Option Nat) :
    ∀ (evs : List BodyEvent) (st : BodyState), BodyEvent.aborted ∈ evs →
      (runBody m st evs).hasClosed = true := by
  intro evs
  induction evs with
  | nil => intro st h; simp at h
  | cons e rest ih =>
    intro st h
    cases e with
    | data bytes isLast =>
      have hrest : BodyEvent.aborted ∈ rest := by
        rcases List.mem_cons.mp h with h1 | h1
        · exact absurd h1 (by simp)
        · exact h1
      rw [runBody_cons_data]
      exact ih _ hrest
    | aborted =>
      rw [runBody_cons_abort]
      exact runBody_hasClosed_mono m rest _ (onEnd_hasClosed st)

/-- Whether every chunk of the event sequence keeps the cumulative size
within the configured limit, starting from accumulated size s. -/
def eventsWithin (m : Option Nat) : Nat → List BodyEvent → Bool
  | _, [] => true
  | s, BodyEvent.aborted :: rest => eventsWithin m s rest
  | s, BodyEvent.data bytes _ :: rest =>
    maxOk m (s + bytes.length) && eventsWithin m (s + bytes.length) rest

/-- Invariant of a run that never exceeds the limit: the hasClosed flag
mirrors the stream state; the stream errors only past the limit. -/
def withinInv (st : BodyState) : Prop :=
  (st.hasClosed = false → st.ctrl.state = StreamState.readable ∧
    st.ctrl.closeCount = 0 ∧ st.ctrl.errorCount = 0) ∧
  (st.hasClosed = true → st.ctrl.state = StreamState.closed ∧
    st.ctrl.closeCount = 1 ∧ st.ctrl.errorCount = 0)

theorem withinInv_onEnd (st : BodyState) (h : withinInv st) :
    withinInv (onEnd st) := by
  unfold onEnd
  by_cases hc : st.hasClosed = true
  · simp only [hc, if_pos rfl]
    exact h
  · have hc' : st.hasClosed = false := by simpa using hc
    obtain ⟨hr, _⟩ := h
    obtain ⟨hs, hcc, hec⟩ := hr hc'
    simp only [hc', Bool.false_eq_true, if_false]
    constructor
    · intro hfc
      simp at hfc
    · intro _
      rw [ctrlClose_readable st.ctrl hs]
      refine ⟨rfl, ?_, ?_⟩
      · simp [hcc]
      · simp [hec]

theorem onEnd_size (st : BodyState) : (onEnd st).size = st.size := by
  unfold onEnd
  split <;> rfl

theorem onData_size (m : Option Nat) (st : BodyState) (bytes : Chunk)
    (isLast : Bool) :
    (onData m st bytes isLast).size = st.size + bytes.length := by
  simp only [onData]
  split
  · rename_i hcond
    simp only [Bool.and_eq_true, beq_iff_eq] at hcond
    rw [onEnd_size, hcond.1.2]
    simp
  · split
    · split
      · rw [onEnd_size]
      · rfl
    · rfl

theorem withinInv_onData (m : Option Nat) (st : BodyState) (bytes : Chunk)
    (isLast : Bool) (hmax : maxOk m (st.size + bytes.length) = true)
    (h : withinInv st) : withinInv (onData m st bytes isLast) := by
  have henq : withinInv { st with size := st.size + bytes.length,
                                  ctrl := ctrlEnqueue st.ctrl bytes } := by
    obtain ⟨hq1, hq2, hq3⟩ := ctrlEnqueue_state st.ctrl bytes
    obtain ⟨h1, h2⟩ := h
    constructor
    · intro hc
      obtain ⟨a, b, c⟩ := h1 hc
      exact ⟨by rw [hq1]; exact a, by rw [hq2]; exact b, by rw [hq3]; exact c⟩
    · intro hc
      obtain ⟨a, b, c⟩ := h2 hc
      exact ⟨by rw [hq1]; exact a, by rw [hq2]; exact b, by rw [hq3]; exact c⟩
  cases isLast with
  | false =>
    simpa [onData, hmax] using henq
  | true =>
    by_cases hsp : (st.size == 0 && (bytes.length == 0)) = true
    · have hred : onData m st bytes true = onEnd st := by
        simp [onData, hsp]
      rw [hred]
      exact withinInv_onEnd st h
    · have hsp' : (st.size == 0 && (bytes.length == 0)) = false := by
        simpa using hsp
      have hred : onData m st bytes true =
          onEnd { st with size := st.size + bytes.length,
                          ctrl := ctrlEnqueue st.ctrl bytes } := by
        simp [onData, hsp', hmax]
      rw [hred]
      exact withinInv_onEnd _ henq

theorem withinInv_runBody (m : Option Nat) :
    ∀ (evs : List BodyEvent) (st : BodyState),
      eventsWithin m st.size evs = true → withinInv st →
      withinInv (runBody m st evs) := by
  intro evs
  induction evs with
  | nil => intro st _ h; exact h
  | cons e rest ih =>
    intro st hw h
    cases e with
    | aborted =>
      rw [runBody_cons_abort]
      have hw' : eventsWithin m (onEnd st).size rest = true := by
        rw [onEnd_size]
        simpa [eventsWithin] using hw
      exact ih _ hw' (withinInv_onEnd st h)
    | data bytes isLast =>
      rw [runBody_cons_data]
      simp only [eventsWithin, Bool.and_eq_true] at hw
      obtain ⟨hmax, hrest⟩ := hw
      have hw' : eventsWithin m (onData m st bytes isLast).size rest = true := by
        rw [onData_size]
        exact hrest
      exact ih _ hw' (withinInv_onData m st bytes isLast hmax h)

/-- Claim C4: termination of the body stream is idempotent. Over any event
sequence the controller performs at most one effective terminal transition
(close or error); and when the transport abort callback fires in a run whose
chunks stay within the limit (so the natural final-chunk completion also
routes through the same onEnd path), the controller is closed exactly once
and never closed or errored again. -/
theorem C4_termination_idempotent (m : Option Nat) (evs : List BodyEvent) :
    (runBody m initBody evs).ctrl.closeCount +
      (runBody m initBody evs).ctrl.errorCount ≤ 1 ∧
    (BodyEvent.aborted ∈ evs → eventsWithin m 0 evs = true →
      (runBody m initBody evs).ctrl.closeCount = 1 ∧
      (runBody m initBody evs).ctrl.errorCount = 0) := by
  constructor
  · have h0 : ctrlTerminalInv initBody.ctrl := ⟨fun _ => ⟨rfl, rfl⟩, by simp [initBody]⟩
    exact (ctrlTerminalInv_runBody m evs initBody h0).2
  · intro hab hw
    have h0 : withinInv initBody := by
      constructor
      · intro _
        exact ⟨rfl, rfl, rfl⟩
      · intro hc
        simp [initBody] at hc
    have hinv := withinInv_runBody m evs initBody (by simpa [initBody] using hw) h0
    have hclosed := runBody_aborted_hasClosed m evs initBody hab
    obtain ⟨-, h2⟩ := hinv
    obtain ⟨-, hc, he⟩ := h2 hclosed
    exact ⟨hc, he⟩

/-- Claim C4, witness: a chunk followed by an abort (both firing) closes the
controller exactly once, with no error transition. -/
theorem C4_witness :
    (runBody (some 10) initBody
        [BodyEvent.data [7] false, BodyEvent.aborted]).ctrl.closeCount = 1 ∧
    (runBody (some 10) initBody
        [BodyEvent.data [7] false, BodyEvent.aborted]).ctrl.errorCount = 0 ∧
    (runBody (some 10) initBody
        [BodyEvent.data [7] false, BodyEvent.aborted]).ctrl.closeCount +
      (runBody (some 10) initBody
        [BodyEvent.data [7] false, BodyEvent.aborted]).ctrl.errorCount ≤ 1 := by
  have h := C4_termination_idempotent (some 10)
    [BodyEvent.data [7] false, BodyEvent.aborted]
  have h2 := h.2 (by decide) (by decide)
  exact ⟨h2.1, h2.2, h.1⟩

/-! ## Promise-based body ingestion: getPostBody (utils.ts)

The onData callback registered by getPostBody is

    res.onData((ab, isLast) => {
      if (buffer === undefined && isLast) {
        resolve({ ok: true, data: Buffer.from(ab).toString(), preprocessed: false });
        return;
      }
      const chunk = Buffer.from(ab);
      if (maxBodySize && buffer.length >= maxBodySize) {
        resolve({ ok: false, error: new TRPCError({ code: PAYLOAD_TOO_LARGE }) });
      }
      if (buffer) buffer = Buffer.concat([buffer, chunk]);
      else buffer = Buffer.concat([chunk]);
      if (isLast) { resolve({ ok: true, data: buffer.toString(), preprocessed: false }); }
    });
    res.onAborted(() => { resolve({ ok: false, error: ... CLIENT_CLOSED_REQUEST }); });

A promise resolves at most once: later resolve calls are no-ops. Reading
buffer.length while buffer is still undefined throws a TypeError; the model
records this as the crashed flag (after which the callback never runs to
completion again). The comparisons field counts evaluations of the
expression buffer.length >= maxBodySize, which JavaScript reaches only when
maxBodySize is truthy (set and nonzero). -/

inductive PostResult where
  | ok (data : Chunk)
  | errPayloadTooLarge
  | errClientClosed
deriving DecidableEq, Repr

structure PostState where
  buffer : Option Chunk
  resolved : Option PostResult
  comparisons : Nat
  crashed : Bool
deriving DecidableEq, Repr

def initPost : PostState :=
  { buffer := none, resolved := none, comparisons := 0, crashed := false }

/-- First resolve wins; later calls are no-ops. -/
def resolvePost (r : PostResult) (st : PostState) : PostState :=
  match st.resolved with
  | some _ => st
  | none => { st with resolved := some r }

/-- Append the incoming chunk to the accumulator and resolve if final
(the tail of the onData callback past the size check). -/
def postAccumulate (st : PostState) (bytes : Chunk) (isLast : Bool) : PostState :=
  let buf := (st.buffer.getD []) ++ bytes
  let st' : PostState := { st with buffer := some buf }
  if isLast then resolvePost (PostResult.ok buf) st' else st'

/-- The onData callback of getPostBody. maxBodySize = none models both an
absent and a zero (falsy) maxBodySize argument. -/
def postOnData (maxBodySize : Option Nat) (st : PostState) (bytes : Chunk)
    (isLast : Bool) : PostState :=
  if st.crashed then st
  else if st.buffer.isNone && isLast then resolvePost (PostResult.ok bytes) st
  else
    match maxBodySize, st.buffer with
    | some mv, none =>
      if mv == 0 then postAccumulate st bytes isLast
      else { st with crashed := true }
    | some mv, some buf =>
      if mv == 0 then postAccumulate st bytes isLast
      else
        let st' : PostState := { st with comparisons := st.comparisons + 1 }
        let st'' : PostState :=
          if buf.length ≥ mv then resolvePost PostResult.errPayloadTooLarge st' else st'
        postAccumulate st'' bytes isLast
    | none, _ => postAccumulate st bytes isLast

/-- The onAborted callback of getPostBody. -/
def postOnAborted (st : PostState) : PostState :=
  if st.crashed then st else resolvePost PostResult.errClientClosed st

inductive PostEvent where
  | data (bytes : Chunk) (isLast : Bool)
  | aborted
deriving DecidableEq, Repr

def postRun (maxBodySize : Option Nat) : PostState → List PostEvent → PostState
  | st, [] => st
  | st, PostEvent.data bytes isLast :: rest =>
    postRun maxBodySize (postOnData maxBodySize st bytes isLast) rest
  | st, PostEvent.aborted :: rest => postRun maxBodySize (postOnAborted st) rest

/-- Number of data events in a getPostBody run. -/
def dataCount (evs : List PostEvent) : Nat :=
  (evs.filter fun e =>
    match e with
    | PostEvent.data _ _ => true
    | _ => false).length

theorem resolvePost_comparisons (r : PostResult) (st : PostState) :
    (resolvePost r st).comparisons = st.comparisons := by
  unfold resolvePost
  split <;> rfl

theorem resolvePost_buffer (r : PostResult) (st : PostState) :
    (resolvePost r st).buffer = st.buffer := by
  unfold resolvePost
  split <;> rfl

theorem postAccumulate_comparisons (st : PostState) (bytes : Chunk)
    (isLast : Bool) :
    (postAccumulate st bytes isLast).comparisons = st.comparisons := by
  simp only [postAccumulate]
  split
  · rw [resolvePost_comparisons]
  · rfl

/-- The size comparison runs at most once per data event, and only when an
earlier chunk has already been accumulated into the buffer. -/
theorem postOnData_comparisons (m : Option Nat) (st : PostState) (bytes : Chunk)
    (isLast : Bool) :
    (postOnData m st bytes isLast).comparisons = st.comparisons ∨
    ((postOnData m st bytes isLast).comparisons = st.comparisons + 1 ∧
      st.buffer ≠ none) := by
  simp only [postOnData]
  split
  · exact Or.inl rfl
  · split
    · exact Or.inl (resolvePost_comparisons _ _)
    · split
      · split
        · exact Or.inl (postAccumulate_comparisons _ _ _)
        · exact Or.inl rfl
      · rename_i mv buf heq
        split
        · exact Or.inl (postAccumulate_comparisons _ _ _)
        · refine Or.inr ⟨?_, ?_⟩
          · rw [postAccumulate_comparisons]
            split
            · rw [resolvePost_comparisons]
            · rfl
          · rw [heq]
            simp
      · exact Or.inl (postAccumulate_comparisons _ _ _)

theorem postOnAborted_comparisons (st : PostState) :
    (postOnAborted st).comparisons = st.comparisons := by
  unfold postOnAborted
  split
  · rfl
  · rw [resolvePost_comparisons]

/-- Invariant tying the state to the number of data events already seen. -/
def postInv (st : PostState) (n : Nat) : Prop :=
  (st.buffer ≠ none → 1 ≤ n) ∧ (0 < st.comparisons → 2 ≤ n)

theorem postInv_onData (m : Option Nat) (st : PostState) (bytes : Chunk)
    (isLast : Bool) (n : Nat) (h : postInv st n) :
    postInv (postOnData m st bytes isLast) (n + 1) := by
  obtain ⟨h1, h2⟩ := h
  refine ⟨fun _ => by omega, ?_⟩
  rcases postOnData_comparisons m st bytes isLast with hc | ⟨hc, hb⟩
  · intro hpos
    rw [hc] at hpos
    have := h2 hpos
    omega
  · intro _
    have := h1 hb
    omega

theorem postInv_onAborted (st : PostState) (n : Nat) (h : postInv st n) :
    postInv (postOnAborted st) n := by
  obtain ⟨h1, h2⟩ := h
  constructor
  · intro hb
    apply h1
    unfold postOnAborted at hb
    revert hb
    split
    · exact fun hb => hb
    · rw [resolvePost_buffer]
      exact fun hb => hb
  · intro hc
    rw [postOnAborted_comparisons] at hc
    exact h2 hc

theorem postInv_run (m : Option Nat) :
    ∀ (evs : List PostEvent) (st : PostState) (n : Nat), postInv st n →
      postInv (postRun m st evs) (n + dataCount evs) := by
  intro evs
  induction evs with
  | nil => intro st n h; simpa [dataCount] using h
  | cons e rest ih =>
    intro st n h
    cases e with
    | data bytes isLast =>
      have hdc : dataCount (PostEvent.data bytes isLast :: rest) =
          dataCount rest + 1 := by
        simp [dataCount, List.filter_cons]
      rw [hdc]
      have harith : n + (dataCount rest + 1) = (n + 1) + dataCount rest := by omega
      rw [harith]
      exact ih _ (n + 1) (postInv_onData m st bytes isLast n h)
    | aborted =>
      have hdc : dataCount (PostEvent.aborted :: rest) = dataCount rest := by
        simp [dataCount, List.filter_cons]
      rw [hdc]
      exact ih _ n (postInv_onAborted st n h)

/-- Claim C10: a body delivered as a single chunk marked final resolves ok
with that chunk's data immediately — without the buffer size ever being
compared against maxBodySize, whatever its value — and a body delivered in
a single chunk (final or not) never evaluates the size comparison and never
resolves PAYLOAD_TOO_LARGE: that check is only reachable for bodies
delivered in two or more chunks. -/
theorem C10_single_chunk_skips_size_check :
    (∀ (m : Option Nat) (bytes : Chunk),
      postRun m initPost [PostEvent.data bytes true] =
        { buffer := none, resolved := some (PostResult.ok bytes),
          comparisons := 0, crashed := false }) ∧
    (∀ (m : Option Nat) (bytes : Chunk) (isLast : Bool),
      (postRun m initPost [PostEvent.data bytes isLast]).comparisons = 0 ∧
      (postRun m initPost [PostEvent.data bytes isLast]).resolved ≠
        some PostResult.errPayloadTooLarge) := by
  constructor
  · intro m bytes
    rfl
  · intro m bytes isLast
    cases m with
    | none =>
      cases isLast <;>
        simp [postRun, postOnData, initPost, postAccumulate, resolvePost]
    | some mv =>
      by_cases hmv : (mv == 0) = true
      · cases isLast <;>
          simp [postRun, postOnData, initPost, postAccumulate, resolvePost, hmv]
      · have hmv' : (mv == 0) = false := by simpa using hmv
        cases isLast <;>
          simp [postRun, postOnData, initPost, postAccumulate, resolvePost, hmv']

/-! ## Request wrapping: extractAndWrapHttpRequest (utils.ts)

    const headers: Record<string, string> = {};
    req.forEach((key, value) => { headers[key] = value; });

The native request's headers are delivered by req.forEach as an ordered
sequence of (name, value) pairs; the wrapper stores them in a JavaScript
string-keyed record, where assigning to an existing key replaces its value
in place (keeping its original position) and a new key is appended. -/

/-- One assignment headers[k] = v on a JavaScript string-keyed record. -/
def recordSet (r : List (String × String)) (k v : String) :
    List (String × String) :=
  if (r.map Prod.fst).contains k then
    r.map fun kv => if kv.1 = k then (k, v) else kv
  else r ++ [(k, v)]

structure WrappedHTTPRequest where
  headers : List (String × String)
  method : String
  query : String
  url : String
deriving DecidableEq, Repr

/-- extractAndWrapHttpRequest: method upper-cased, url stripped of the
mount prefix plus one character, query kept as a string, headers folded
through the record one forEach step at a time. -/
def extractAndWrapHttpRequest (pfx : String) (method rawUrl query : String)
    (reqHeaders : List (String × String)) : WrappedHTTPRequest :=
  { method := method.toUpper,
    url := (rawUrl.drop (pfx.length + 1)),
    query := query,
    headers := reqHeaders.foldl (fun acc kv => recordSet acc kv.1 kv.2) [] }

/-- The values exposed for a header name, in order. -/
def valuesFor (headers : List (String × String)) (k : String) : List String :=
  (headers.filter fun kv => kv.1 = k).map Prod.snd

/-- Value of the last native occurrence of a header name. -/
def lookupLast (k : String) : List (String × String) → Option String
  | [] => none
  | (k', v) :: rest =>
    match lookupLast k rest with
    | some r => some r
    | none => if k' = k then some v else none

/-- Claim C7, counterexample: a native request carrying two values for the
header x-tag exposes only one of them to the context factory — the wrapped
headers are not an ordered multi-map. -/
theorem C7_counterexample :
    ¬ (valuesFor (extractAndWrapHttpRequest "trpc" "get" "/trpc/p" ""
          [("x-tag", "1"), ("x-tag", "2")]).headers "x-tag" = ["1", "2"]) := by
  decide

/-- First-match lookup in the wrapped header record. -/
def hdrLookup (r : List (String × String)) (q : String) : Option String :=
  match r with
  | [] => none
  | (k, v) :: rest => if k = q then some v else hdrLookup rest q

theorem hdrLookup_cons (kv : String × String) (rest : List (String × String))
    (q : String) :
    hdrLookup (kv :: rest) q = if kv.1 = q then some kv.2 else hdrLookup rest q :=
  rfl

theorem hdrLookup_map_ne (k v q : String) (hq : q ≠ k) :
    ∀ (r : List (String × String)),
      hdrLookup (r.map fun kv => if kv.1 = k then (k, v) else kv) q =
        hdrLookup r q := by
  intro r
  induction r with
  | nil => rfl
  | cons kv rest ih =>
    rw [List.map_cons]
    by_cases hkv : kv.1 = k
    · rw [if_pos hkv, hdrLookup_cons, hdrLookup_cons]
      have h1 : ¬ ((k, v).1 = q) := by
        intro h
        exact hq h.symm
      have h2 : ¬ (kv.1 = q) := by
        rw [hkv]
        intro h
        exact hq h.symm
      rw [if_neg h1, if_neg h2]
      exact ih
    · rw [if_neg hkv, hdrLookup_cons, hdrLookup_cons]
      by_cases hkq : kv.1 = q
      · rw [if_pos hkq, if_pos hkq]
      · rw [if_neg hkq, if_neg hkq]
        exact ih

theorem hdrLookup_map_hit (k v : String) :
    ∀ (r : List (String × String)),
      ((r.map Prod.fst).contains k) = true →
      hdrLookup (r.map fun kv => if kv.1 = k then (k, v) else kv) k = some v := by
  intro r
  induction r with
  | nil => intro h; simp at h
  | cons kv rest ih =>
    intro h
    rw [List.map_cons]
    by_cases hkv : kv.1 = k
    · rw [if_pos hkv, hdrLookup_cons]
      rw [if_pos rfl]
    · have h' : ((rest.map Prod.fst).contains k) = true := by
        simp only [List.map_cons, List.contains_cons, Bool.or_eq_true,
          beq_iff_eq] at h
        rcases h with h1 | h1
        · exact absurd h1.symm hkv
        · exact h1
      rw [if_neg hkv, hdrLookup_cons, if_neg hkv]
      exact ih h'

theorem hdrLookup_not_contains (k : String) :
    ∀ (r : List (String × String)),
      ((r.map Prod.fst).contains k) = false → hdrLookup r k = none := by
  intro r
  induction r with
  | nil => intro _; rfl
  | cons kv rest ih =>
    intro h
    have hkv : kv.1 ≠ k := by
      intro he
      rw [List.map_cons, List.contains_cons, he] at h
      simp at h
    have h' : ((rest.map Prod.fst).contains k) = false := by
      rw [List.map_cons, List.contains_cons] at h
      cases hcc : ((rest.map Prod.fst).contains k) with
      | false => rfl
      | true => rw [hcc] at h; simp at h
    rw [hdrLookup_cons, if_neg hkv]
    exact ih h'

theorem hdrLookup_append (r s : List (String × String)) (q : String) :
    hdrLookup (r ++ s) q =
      match hdrLookup r q with
      | some x => some x
      | none => hdrLookup s q := by
  induction r with
  | nil => rfl
  | cons kv rest ih =>
    rw [List.cons_append, hdrLookup_cons, hdrLookup_cons]
    by_cases hkq : kv.1 = q
    · rw [if_pos hkq, if_pos hkq]
    · rw [if_neg hkq, if_neg hkq]
      exact ih

theorem recordSet_hdrLookup (r : List (String × String)) (k v q : String) :
    hdrLookup (recordSet r k v) q = if q = k then some v else hdrLookup r q := by
  unfold recordSet
  by_cases hc : ((r.map Prod.fst).contains k) = true
  · rw [if_pos hc]
    by_cases hq : q = k
    · subst hq
      rw [if_pos rfl]
      exact hdrLookup_map_hit q v r hc
    · rw [if_neg hq]
      exact hdrLookup_map_ne k v q hq r
  · have hc' : ((r.map Prod.fst).contains k) = false := by simpa using hc
    rw [if_neg (show ¬ ((r.map Prod.fst).contains k = true) by
      rw [hc']; exact Bool.false_ne_true)]
    rw [hdrLookup_append]
    by_cases hq : q = k
    · subst hq
      rw [hdrLookup_not_contains q r hc']
      simp [hdrLookup]
    · cases hr : hdrLookup r q with
      | some x => simp [hr, hq]
      | none =>
        simp only [hr, hdrLookup]
        rw [if_neg (fun h => hq h.symm), if_neg hq]

theorem foldl_recordSet_hdrLookup (q : String) :
    ∀ (hs : List (String × String)) (acc : List (String × String)),
      hdrLookup (hs.foldl (fun a kv => recordSet a kv.1 kv.2) acc) q =
        match lookupLast q hs with
        | some r => some r
        | none => hdrLookup acc q := by
  intro hs
  induction hs with
  | nil => intro acc; rfl
  | cons kv rest ih =>
    intro acc
    simp only [List.foldl_cons, lookupLast]
    rw [ih (recordSet acc kv.1 kv.2)]
    cases hr : lookupLast q rest with
    | some r => rfl
    | none =>
      simp only []
      rw [recordSet_hdrLookup]
      by_cases hq : q = kv.1
      · rw [if_pos hq, if_pos hq.symm]
      · rw [if_neg hq, if_neg (fun h => hq h.symm)]

/-- Claim C7, amended: the headers exposed to the context factory form a
single-valued record: for every header name, the exposed value is the value
of the LAST native occurrence of that name (earlier values of a repeated
name are overwritten), not an ordered multi-map of all values. -/
theorem C7_amended (pfx method rawUrl query q : String)
    (reqHeaders : List (String × String)) :
    hdrLookup (extractAndWrapHttpRequest pfx method rawUrl query
        reqHeaders).headers q = lookupLast q reqHeaders := by
  show hdrLookup (reqHeaders.foldl (fun a kv => recordSet a kv.1 kv.2) []) q = _
  rw [foldl_recordSet_hdrLookup q reqHeaders []]
  cases lookupLast q reqHeaders <;> rfl

/-! ## URL construction: createURL (fetchCompat.ts)

    const protocol = res.encrypted ? 'https:' : 'http:';
    const host = req.getHeader('host') ?? 'localhost';
    const path = req.getUrl();
    const qs = req.getQuery();
    if (qs) { return new URL(path + '?' + qs, protocol + '//' + host); }
    else    { return new URL(path, protocol + '//' + host); }
    // on throw: new TRPCError({ code: 'BAD_REQUEST', message: 'Invalid URL', cause })

The host header crossing the external getHeader boundary is modelled as an
Option String: none (nullish) falls back to 'localhost' through the ??
operator. The external WHATWG URL constructor is modelled for the inputs
this code produces: a base built from a protocol and an authority, failing
exactly when the authority is empty (e.g. new URL('/x', 'http://') throws
Invalid base URL), and otherwise recording protocol, host and the relative
path-plus-query input. -/

inductive TRPCErrorCode where
  | BAD_REQUEST
  | PAYLOAD_TOO_LARGE
  | CLIENT_CLOSED_REQUEST
  | PARSE_ERROR
  | INTERNAL_SERVER_ERROR
deriving DecidableEq, Repr

structure TRPCErrorModel where
  code : TRPCErrorCode
  message : String
  cause : Option String
deriving DecidableEq, Repr

structure URLModel where
  protocol : String
  host : String
  pathAndQuery : String
deriving DecidableEq, Repr

/-- The external WHATWG URL constructor on a relative input and a base made
of a protocol and an authority (host). -/
def newURL (input protocol host : String) : Except String URLModel :=
  if host = "" then Except.error "Invalid base URL"
  else Except.ok { protocol := protocol, host := host, pathAndQuery := input }

/-- createURL: scheme from the encrypted flag, host from the (nullish-
defaulted) host header, path plus query string when the query is truthy
(nonempty); a constructor failure becomes a BAD_REQUEST error with the
underlying parse error as cause. -/
def createURL (hostHeader : Option String) (encrypted : Bool)
    (path qs : String) : Except TRPCErrorModel URLModel :=
  let protocol := if encrypted then "https:" else "http:"
  let host := hostHeader.getD "localhost"
  let input := if qs = "" then path else path ++ "?" ++ qs
  match newURL input protocol host with
  | Except.ok u => Except.ok u
  | Except.error cause =>
    Except.error { code := TRPCErrorCode.BAD_REQUEST, message := "Invalid URL",
                   cause := some cause }

/-- Claim C9: the target URL is built with the scheme chosen by the
encrypted flag, the host from the host header defaulting to localhost when
that header is absent, and the path plus query string; when URL
construction fails the adapter fails with BAD_REQUEST carrying the
underlying parse error as cause. -/
theorem C9_createURL_spec (hostHeader : Option String) (encrypted : Bool)
    (path qs : String) :
    (hostHeader.getD "localhost" ≠ "" →
      createURL hostHeader encrypted path qs =
        Except.ok { protocol := if encrypted then "https:" else "http:",
                    host := hostHeader.getD "localhost",
                    pathAndQuery := if qs = "" then path else path ++ "?" ++ qs }) ∧
    (hostHeader.getD "localhost" = "" →
      createURL hostHeader encrypted path qs =
        Except.error { code := TRPCErrorCode.BAD_REQUEST,
                       message := "Invalid URL",
                       cause := some "Invalid base URL" }) := by
  constructor
  · intro hne
    simp [createURL, newURL, hne]
  · intro he
    simp [createURL, newURL, he]

/-- Claim C9, witness: with an explicit host header and a query the URL is
assembled from its parts; with an absent host header the default localhost
is used; with an empty host header value URL construction fails with
BAD_REQUEST cause Invalid base URL. -/
theorem C9_witness :
    createURL (some "example.com") true "/trpc/hello" "input=1" =
      Except.ok { protocol := "https:", host := "example.com",
                  pathAndQuery := "/trpc/hello?input=1" } ∧
    createURL none false "/trpc/hello" "" =
      Except.ok { protocol := "http:", host := "localhost",
                  pathAndQuery := "/trpc/hello" } ∧
    createURL (some "") false "/p" "" =
      Except.error { code := TRPCErrorCode.BAD_REQUEST,
                     message := "Invalid URL",
                     cause := some "Invalid base URL" } := by
  refine ⟨?_, ?_, ?_⟩
  · exact (C9_createURL_spec (some "example.com") true "/trpc/hello" "input=1").1
      (by decide)
  · exact (C9_createURL_spec none false "/trpc/hello" "").1 (by decide)
  · exact (C9_createURL_spec (some "") false "/p" "").2 (by decide)

/-! ## Subscription multiplexer: applyWSHandler (wssHandler source)

Per connection the handler keeps clientSubscriptions, a map from request id
to the Unsubscribable returned by observable.subscribe. The model identifies
each subscribe call by a fresh token (nextToken); registered lists the
tokens ever stored into the map, unsubs the tokens whose unsubscribe ran
(in call order), responses the envelopes passed to respond, and
dispatchCount the number of callProcedure invocations.

handleRequest (single envelope):
  - id === null throws before the try block; the message handler catches it
    and responds once with a null-id error envelope;
  - method 'subscription.stop': if a subscription exists under the id it is
    stopped (unsubscribe + 'stopped' response); the map entry is deleted;
  - otherwise callProcedure runs. A non-subscription call responds 'data';
    a subscription kind requires an observable result (else an internal
    error response); the fresh subscription is created first, and only then
    the duplicate-id check runs: on a duplicate the FRESH subscription is
    stopped (unsubscribe + 'stopped') and a BAD_REQUEST error response is
    sent; otherwise the map registers the token and 'started' is sent.

close: unsubscribe every subscription in the map, clear the map, send
nothing. -/

inductive RpcId where
  | str (s : String)
  | num (n : Int)
deriving DecidableEq, Repr

inductive ProcType where
  | query
  | mutation
  | subscription
deriving DecidableEq, Repr

/-- A parsed incoming client envelope: a stop record or a call. The id is
optional; none models the JSON null id. -/
inductive ClientMessage where
  | stop (id : Option RpcId)
  | call (id : Option RpcId) (ptype : ProcType) (path : String)
deriving DecidableEq, Repr

/-- Outcome of the external dispatch engine (callProcedure) for one call:
a plain value, an observable, or a thrown typed error. -/
inductive DispatchOutcome where
  | value
  | observableResult
  | failure (code : TRPCErrorCode)
deriving DecidableEq, Repr

/-- A response envelope passed to respond (the outgoing send path). -/
inductive WsResponse where
  | started (id : RpcId)
  | stopped (id : RpcId)
  | dataMsg (id : RpcId)
  | errMsg (id : Option RpcId) (code : TRPCErrorCode)
deriving DecidableEq, Repr

structure WsConn where
  subs : List (RpcId × Nat)
  nextToken : Nat
  registered : List Nat
  unsubs : List Nat
  responses : List WsResponse
  dispatchCount : Nat
deriving DecidableEq, Repr

def initConn : WsConn :=
  { subs := [], nextToken := 0, registered := [], unsubs := [],
    responses := [], dispatchCount := 0 }

/-- clientSubscriptions.get(id): first (and only) binding for the id. -/
def subLookup (l : List (RpcId × Nat)) (id : RpcId) : Option Nat :=
  match l with
  | [] => none
  | (k, v) :: rest => if k = id then some v else subLookup rest id

/-- clientSubscriptions.delete(id). -/
def subDelete (l : List (RpcId × Nat)) (id : RpcId) : List (RpcId × Nat) :=
  l.filter fun kv => kv.1 ≠ id

/-- stopSubscription: run the unsubscribe capability, then respond with a
stopped envelope for the id. -/
def stopSubscription (conn : WsConn) (token : Nat) (id : RpcId) : WsConn :=
  { conn with unsubs := conn.unsubs ++ [token],
              responses := conn.responses ++ [WsResponse.stopped id] }

/-- handleRequest on one parsed envelope, given the dispatch outcome for its
call. Except.error () models the exception escaping handleRequest (only the
null-id guard, which sits before the internal try block). -/
def handleRequest (conn : WsConn) (msg : ClientMessage)
    (outcome : DispatchOutcome) : Except Unit WsConn :=
  match msg with
  | ClientMessage.stop none => Except.error ()
  | ClientMessage.call none _ _ => Except.error ()
  | ClientMessage.stop (some id) =>
    match subLookup conn.subs id with
    | some tok =>
      let conn' := stopSubscription conn tok id
      Except.ok { conn' with subs := subDelete conn'.subs id }
    | none => Except.ok { conn with subs := subDelete conn.subs id }
  | ClientMessage.call (some id) ptype _path =>
    let conn := { conn with dispatchCount := conn.dispatchCount + 1 }
    match outcome with
    | DispatchOutcome.failure code =>
      Except.ok { conn with
        responses := conn.responses ++ [WsResponse.errMsg (some id) code] }
    | DispatchOutcome.value =>
      if ptype = ProcType.subscription then
        Except.ok { conn with
          responses := conn.responses ++
            [WsResponse.errMsg (some id) TRPCErrorCode.INTERNAL_SERVER_ERROR] }
      else
        Except.ok { conn with
          responses := conn.responses ++ [WsResponse.dataMsg id] }
    | DispatchOutcome.observableResult =>
      if ptype ≠ ProcType.subscription then
        Except.ok { conn with
          responses := conn.responses ++ [WsResponse.dataMsg id] }
      else
        let tok := conn.nextToken
        let conn := { conn with nextToken := conn.nextToken + 1 }
        if (subLookup conn.subs id).isSome then
          let conn' := stopSubscription conn tok id
          Except.ok { conn' with
            responses := conn'.responses ++
              [WsResponse.errMsg (some id) TRPCErrorCode.BAD_REQUEST] }
        else
          Except.ok { conn with
            subs := conn.subs ++ [(id, tok)],
            registered := conn.registered ++ [tok],
            responses := conn.responses ++ [WsResponse.started id] }

/-- The message handler around handleRequest: an exception escaping
handleRequest is answered by one PARSE_ERROR envelope with a null id. -/
def handleMessageSingle (conn : WsConn) (msg : ClientMessage)
    (outcome : DispatchOutcome) : WsConn :=
  match handleRequest conn msg outcome with
  | Except.ok c => c
  | Except.error _ =>
    { conn with responses := conn.responses ++
        [WsResponse.errMsg none TRPCErrorCode.PARSE_ERROR] }

/-- The close handler: unsubscribe every live subscription, clear the map,
send nothing. -/
def closeConn (conn : WsConn) : WsConn :=
  { conn with unsubs := conn.unsubs ++ conn.subs.map Prod.snd, subs := [] }

def runConn (conn : WsConn) :
    List (ClientMessage × DispatchOutcome) → WsConn
  | [] => conn
  | (msg, outcome) :: rest => runConn (handleMessageSingle conn msg outcome) rest

/-- Claim C8: an incoming request envelope whose id is the null sentinel is
a protocol error: the dispatch engine is never invoked for it and the
client receives exactly one error response with a null id instead of any
result. -/
theorem C8_null_id_protocol_error (conn : WsConn) (ptype : ProcType)
    (path : String) (outcome : DispatchOutcome) :
    handleMessageSingle conn (ClientMessage.call none ptype path) outcome =
      { conn with responses := conn.responses ++
          [WsResponse.errMsg none TRPCErrorCode.PARSE_ERROR] } ∧
    handleMessageSingle conn (ClientMessage.stop none) outcome =
      { conn with responses := conn.responses ++
          [WsResponse.errMsg none TRPCErrorCode.PARSE_ERROR] } ∧
    (handleMessageSingle conn (ClientMessage.call none ptype path)
        outcome).dispatchCount = conn.dispatchCount :=
  ⟨rfl, rfl, rfl⟩

/-- The connection state reached after one successful subscription request
with id s1: the map holds the subscription identified by token 0. -/
def connAfterFirstSub : WsConn :=
  runConn initConn
    [(ClientMessage.call (some (RpcId.str "s1")) ProcType.subscription
        "onMessage",
      DispatchOutcome.observableResult)]

/-- Claim C2, counterexample: handling a second subscription request with
the already-active id s1 does NOT run the existing (first) subscription's
unsubscribe capability — token 0, the live subscription, is never
unsubscribed by the duplicate-id path. -/
theorem C2_counterexample :
    ¬ (0 ∈ (handleMessageSingle connAfterFirstSub
        (ClientMessage.call (some (RpcId.str "s1")) ProcType.subscription
          "onMessage")
        DispatchOutcome.observableResult).unsubs) := by
  decide

/-- Claim C2, amended: on a duplicate subscription id the handler first
runs the unsubscribe capability of the NEWLY created (second) subscription
— never the existing one, which stays registered untouched — then sends a
stopped response for the id followed by a BAD_REQUEST error response, and
no second started result is emitted. -/
theorem C2_amended (conn : WsConn) (id : RpcId) (path : String) (tok0 : Nat)
    (h : subLookup conn.subs id = some tok0) :
    (handleMessageSingle conn
        (ClientMessage.call (some id) ProcType.subscription path)
        DispatchOutcome.observableResult).subs = conn.subs ∧
    (handleMessageSingle conn
        (ClientMessage.call (some id) ProcType.subscription path)
        DispatchOutcome.observableResult).unsubs =
      conn.unsubs ++ [conn.nextToken] ∧
    (handleMessageSingle conn
        (ClientMessage.call (some id) ProcType.subscription path)
        DispatchOutcome.observableResult).registered = conn.registered ∧
    (handleMessageSingle conn
        (ClientMessage.call (some id) ProcType.subscription path)
        DispatchOutcome.observableResult).responses =
      conn.responses ++ [WsResponse.stopped id,
        WsResponse.errMsg (some id) TRPCErrorCode.BAD_REQUEST] := by
  simp [handleMessageSingle, handleRequest, stopSubscription, h]

/-- Claim C2, witness: the amended behaviour at the concrete two-request
scenario — after the duplicate request the map still holds the original
subscription (token 0), the fresh token 1 was unsubscribed, and the
responses are a stopped plus a BAD_REQUEST error, with no second
started. -/
theorem C2_witness :
    (handleMessageSingle connAfterFirstSub
        (ClientMessage.call (some (RpcId.str "s1")) ProcType.subscription
          "onMessage")
        DispatchOutcome.observableResult).subs = connAfterFirstSub.subs ∧
    (handleMessageSingle connAfterFirstSub
        (ClientMessage.call (some (RpcId.str "s1")) ProcType.subscription
          "onMessage")
        DispatchOutcome.observableResult).unsubs =
      connAfterFirstSub.unsubs ++ [connAfterFirstSub.nextToken] ∧
    (handleMessageSingle connAfterFirstSub
        (ClientMessage.call (some (RpcId.str "s1")) ProcType.subscription
          "onMessage")
        DispatchOutcome.observableResult).registered =
      connAfterFirstSub.registered ∧
    (handleMessageSingle connAfterFirstSub
        (ClientMessage.call (some (RpcId.str "s1")) ProcType.subscription
          "onMessage")
        DispatchOutcome.observableResult).responses =
      connAfterFirstSub.responses ++ [WsResponse.stopped (RpcId.str "s1"),
        WsResponse.errMsg (some (RpcId.str "s1")) TRPCErrorCode.BAD_REQUEST] :=
  C2_amended connAfterFirstSub (RpcId.str "s1") "onMessage" 0 (by decide)

/-! ### Connection close cleanup (C5) -/

/-- The tokens of the live subscriptions. -/
def subsTokens (conn : WsConn) : List Nat := conn.subs.map Prod.snd

theorem subLookup_mem_values (l : List (RpcId × Nat)) (id : RpcId) (tok : Nat)
    (h : subLookup l id = some tok) : tok ∈ l.map Prod.snd := by
  induction l with
  | nil => simp [subLookup] at h
  | cons kv rest ih =>
    rw [show subLookup (kv :: rest) id =
        if kv.1 = id then some kv.2 else subLookup rest id from rfl] at h
    by_cases hk : kv.1 = id
    · rw [if_pos hk] at h
      simp only [Option.some_inj] at h
      simp [← h]
    · rw [if_neg hk] at h
      simp [ih h]

theorem subLookup_none_not_key (l : List (RpcId × Nat)) (id : RpcId)
    (h : subLookup l id = none) : ∀ kv ∈ l, kv.1 ≠ id := by
  induction l with
  | nil => intro kv hkv; simp at hkv
  | cons kv0 rest ih =>
    rw [show subLookup (kv0 :: rest) id =
        if kv0.1 = id then some kv0.2 else subLookup rest id from rfl] at h
    by_cases hk : kv0.1 = id
    · rw [if_pos hk] at h
      exact absurd h (by simp)
    · rw [if_neg hk] at h
      intro kv hkv
      rcases List.mem_cons.mp hkv with h1 | h1
      · rw [h1]; exact hk
      · exact ih h kv h1

theorem subDelete_of_lookup_none (l : List (RpcId × Nat)) (id : RpcId)
    (h : subLookup l id = none) : subDelete l id = l := by
  unfold subDelete
  apply List.filter_eq_self.mpr
  intro kv hkv
  simpa using subLookup_none_not_key l id h kv hkv

theorem subDelete_keys_sublist (l : List (RpcId × Nat)) (id : RpcId) :
    List.Sublist ((subDelete l id).map Prod.fst) (l.map Prod.fst) :=
  List.Sublist.map Prod.fst (List.filter_sublist l)

theorem subDelete_values_sublist (l : List (RpcId × Nat)) (id : RpcId) :
    List.Sublist ((subDelete l id).map Prod.snd) (l.map Prod.snd) :=
  List.Sublist.map Prod.snd (List.filter_sublist l)

theorem subDelete_of_not_mem_keys (l : List (RpcId × Nat)) (id : RpcId)
    (h : id ∉ l.map Prod.fst) : subDelete l id = l := by
  unfold subDelete
  apply List.filter_eq_self.mpr
  intro kv hkv
  have : kv.1 ≠ id := by
    intro he
    exact h (List.mem_map.mpr ⟨kv, hkv, he⟩)
  simpa using this

/-- Deleting the id found by lookup removes its binding's token exactly
once from the value multiset, provided the keys are distinct. -/
theorem subDelete_values_count (id : RpcId) (tok : Nat) :
    ∀ (l : List (RpcId × Nat)), (l.map Prod.fst).Nodup →
      subLookup l id = some tok →
      ∀ t, ((subDelete l id).map Prod.snd).count t +
          (if t = tok then 1 else 0) = (l.map Prod.snd).count t := by
  intro l
  induction l with
  | nil => intro _ h; simp [subLookup] at h
  | cons kv rest ih =>
    intro hnd h t
    have hnd' : (rest.map Prod.fst).Nodup := by
      rw [List.map_cons] at hnd
      exact hnd.of_cons
    rw [show subLookup (kv :: rest) id =
        if kv.1 = id then some kv.2 else subLookup rest id from rfl] at h
    by_cases hk : kv.1 = id
    · rw [if_pos hk] at h
      have htok : kv.2 = tok := by simpa using h
      have hnotin : id ∉ rest.map Prod.fst := by
        rw [List.map_cons, List.nodup_cons] at hnd
        rw [← hk]
        exact hnd.1
      have hhd : subDelete (kv :: rest) id = subDelete rest id := by
        simp [subDelete, List.filter_cons, hk]
      rw [hhd, subDelete_of_not_mem_keys rest id hnotin, List.map_cons, ← htok]
      by_cases ht : t = kv.2 <;> simp [List.count_cons, ht]
    · rw [if_neg hk] at h
      have hhd : subDelete (kv :: rest) id = kv :: subDelete rest id := by
        simp [subDelete, List.filter_cons, hk]
      have hih := ih hnd' h t
      rw [hhd, List.map_cons, List.map_cons, List.count_cons, List.count_cons]
      omega

/-- Invariant of a connection's subscription bookkeeping: every registered
unsubscribe capability has run exactly once or is still live in the map
(never both), map keys are distinct, and every token seen so far is below
the allocator. -/
def connInv (conn : WsConn) : Prop :=
  (∀ t ∈ conn.registered,
    conn.unsubs.count t + (subsTokens conn).count t = 1) ∧
  (conn.subs.map Prod.fst).Nodup ∧
  (∀ t ∈ subsTokens conn, t < conn.nextToken) ∧
  (∀ t ∈ conn.registered, t < conn.nextToken) ∧
  (∀ t ∈ conn.unsubs, t < conn.nextToken)

theorem connInv_init : connInv initConn := by
  refine ⟨?_, ?_, ?_, ?_, ?_⟩ <;> simp [initConn, subsTokens]

theorem connInv_step (conn : WsConn) (msg : ClientMessage)
    (outcome : DispatchOutcome) (h : connInv conn) :
    connInv (handleMessageSingle conn msg outcome) := by
  obtain ⟨h1, h2, h3, h4, h5⟩ := h
  cases msg with
  | stop oid =>
    cases oid with
    | none => exact ⟨h1, h2, h3, h4, h5⟩
    | some id =>
      cases hl : subLookup conn.subs id with
      | none =>
        have hred : handleMessageSingle conn (ClientMessage.stop (some id))
            outcome = { conn with subs := subDelete conn.subs id } := by
          simp [handleMessageSingle, handleRequest, hl]
        rw [hred, subDelete_of_lookup_none conn.subs id hl]
        exact ⟨h1, h2, h3, h4, h5⟩
      | some tok =>
        have hred : handleMessageSingle conn (ClientMessage.stop (some id))
            outcome =
            { conn with subs := subDelete conn.subs id,
                        unsubs := conn.unsubs ++ [tok],
                        responses := conn.responses ++
                          [WsResponse.stopped id] } := by
          simp [handleMessageSingle, handleRequest, stopSubscription, hl,
            subDelete]
        rw [hred]
        have htokmem : tok ∈ conn.subs.map Prod.snd :=
          subLookup_mem_values conn.subs id tok hl
        refine ⟨?_, ?_, ?_, ?_, ?_⟩ <;> dsimp only [subsTokens]
        · intro t ht
          have hcnt := subDelete_values_count id tok conn.subs h2 hl t
          have hold := h1 t ht
          dsimp only [subsTokens] at hold
          rw [List.count_append]
          have hsing : List.count t [tok] = if t = tok then 1 else 0 := by
            by_cases htk : t = tok <;> simp [htk]
          omega
        · exact (subDelete_keys_sublist conn.subs id).nodup h2
        · intro t ht
          exact h3 t ((subDelete_values_sublist conn.subs id).mem ht)
        · exact h4
        · intro t ht
          rcases List.mem_append.mp ht with hm | hm
          · exact h5 t hm
          · have : t = tok := by simpa using hm
            rw [this]
            exact h3 tok htokmem
  | call oid ptype path =>
    cases oid with
    | none => exact ⟨h1, h2, h3, h4, h5⟩
    | some id =>
      cases outcome with
      | failure code => exact ⟨h1, h2, h3, h4, h5⟩
      | value =>
        by_cases hp : ptype = ProcType.subscription
        · have hred : handleMessageSingle conn
              (ClientMessage.call (some id) ptype path) DispatchOutcome.value =
              { conn with dispatchCount := conn.dispatchCount + 1,
                          responses := conn.responses ++
                            [WsResponse.errMsg (some id)
                              TRPCErrorCode.INTERNAL_SERVER_ERROR] } := by
            simp [handleMessageSingle, handleRequest, hp]
          rw [hred]
          exact ⟨h1, h2, h3, h4, h5⟩
        · have hred : handleMessageSingle conn
              (ClientMessage.call (some id) ptype path) DispatchOutcome.value =
              { conn with dispatchCount := conn.dispatchCount + 1,
                          responses := conn.responses ++
                            [WsResponse.dataMsg id] } := by
            simp [handleMessageSingle, handleRequest, hp]
          rw [hred]
          exact ⟨h1, h2, h3, h4, h5⟩
      | observableResult =>
        by_cases hp : ptype = ProcType.subscription
        · cases hl : subLookup conn.subs id with
          | some tok =>
            have hred : handleMessageSingle conn
                (ClientMessage.call (some id) ptype path)
                DispatchOutcome.observableResult =
                { conn with dispatchCount := conn.dispatchCount + 1,
                            nextToken := conn.nextToken + 1,
                            unsubs := conn.unsubs ++ [conn.nextToken],
                            responses := conn.responses ++
                              [WsResponse.stopped id,
                               WsResponse.errMsg (some id)
                                 TRPCErrorCode.BAD_REQUEST] } := by
              simp [handleMessageSingle, handleRequest, stopSubscription, hp,
                hl]
            rw [hred]
            refine ⟨?_, h2, ?_, ?_, ?_⟩ <;> dsimp only [subsTokens]
            · intro t ht
              have hold := h1 t ht
              have htn : t < conn.nextToken := h4 t ht
              dsimp only [subsTokens] at hold
              rw [List.count_append]
              have hz : List.count t [conn.nextToken] = 0 := by
                apply List.count_eq_zero_of_not_mem
                intro hm
                have : t = conn.nextToken := by simpa using hm
                omega
              omega
            · intro t ht
              exact Nat.lt_succ_of_lt (h3 t ht)
            · intro t ht
              exact Nat.lt_succ_of_lt (h4 t ht)
            · intro t ht
              rcases List.mem_append.mp ht with hm | hm
              · exact Nat.lt_succ_of_lt (h5 t hm)
              · have : t = conn.nextToken := by simpa using hm
                omega
          | none =>
            have hred : handleMessageSingle conn
                (ClientMessage.call (some id) ptype path)
                DispatchOutcome.observableResult =
                { conn with dispatchCount := conn.dispatchCount + 1,
                            nextToken := conn.nextToken + 1,
                            subs := conn.subs ++ [(id, conn.nextToken)],
                            registered := conn.registered ++ [conn.nextToken],
                            responses := conn.responses ++
                              [WsResponse.started id] } := by
              simp [handleMessageSingle, handleRequest, hp, hl]
            rw [hred]
            have hid_notin : id ∉ conn.subs.map Prod.fst := by
              intro hmem
              rcases List.mem_map.mp hmem with ⟨kv, hkv, hkeq⟩
              exact (subLookup_none_not_key conn.subs id hl kv hkv) hkeq
            refine ⟨?_, ?_, ?_, ?_, ?_⟩ <;> dsimp only [subsTokens]
            · intro t ht
              rw [List.map_append, List.count_append]
              rcases List.mem_append.mp ht with hm | hm
              · have hold := h1 t hm
                have htn : t < conn.nextToken := h4 t hm
                have hz : List.count t (([((id : RpcId), conn.nextToken)]).map
                    Prod.snd) = 0 := by
                  apply List.count_eq_zero_of_not_mem
                  intro hmem
                  have : t = conn.nextToken := by simpa using hmem
                  omega
                dsimp only [subsTokens] at hold
                omega
              · have hteq : t = conn.nextToken := by simpa using hm
                have hz1 : conn.unsubs.count t = 0 := by
                  apply List.count_eq_zero_of_not_mem
                  intro hmem
                  have := h5 t hmem
                  omega
                have hz2 : (conn.subs.map Prod.snd).count t = 0 := by
                  apply List.count_eq_zero_of_not_mem
                  intro hmem
                  have := h3 t hmem
                  omega
                rw [hz1, hz2]
                simp [hteq]
            · rw [List.map_append]
              rw [List.nodup_append]
              refine ⟨h2, by simp, ?_⟩
              intro a ha hb
              have : a = id := by simpa using hb
              rw [this] at ha
              exact hid_notin ha
            · intro t ht
              rw [List.map_append] at ht
              rcases List.mem_append.mp ht with hm | hm
              · exact Nat.lt_succ_of_lt (h3 t hm)
              · have : t = conn.nextToken := by simpa using hm
                omega
            · intro t ht
              rcases List.mem_append.mp ht with hm | hm
              · exact Nat.lt_succ_of_lt (h4 t hm)
              · have : t = conn.nextToken := by simpa using hm
                omega
            · intro t ht
              exact Nat.lt_succ_of_lt (h5 t ht)
        · have hred : handleMessageSingle conn
              (ClientMessage.call (some id) ptype path)
              DispatchOutcome.observableResult =
              { conn with dispatchCount := conn.dispatchCount + 1,
                          responses := conn.responses ++
                            [WsResponse.dataMsg id] } := by
            simp [handleMessageSingle, handleRequest, hp]
          rw [hred]
          exact ⟨h1, h2, h3, h4, h5⟩

theorem connInv_run :
    ∀ (ops : List (ClientMessage × DispatchOutcome)) (conn : WsConn),
      connInv conn → connInv (runConn conn ops) := by
  intro ops
  induction ops with
  | nil => intro conn h; exact h
  | cons op rest ih =>
    intro conn h
    exact ih _ (connInv_step conn op.1 op.2 h)

/-- Claim C5: after the connection's close event the subscription map is
empty, the unsubscribe capability of every subscription ever registered on
that connection has been invoked exactly once, and the close cleanup sends
no response envelope — whatever the connection's message history was. -/
theorem C5_close_cleanup (ops : List (ClientMessage × DispatchOutcome)) :
    (closeConn (runConn initConn ops)).subs = [] ∧
    (∀ t ∈ (closeConn (runConn initConn ops)).registered,
      (closeConn (runConn initConn ops)).unsubs.count t = 1) ∧
    (closeConn (runConn initConn ops)).responses =
      (runConn initConn ops).responses := by
  have hinv := connInv_run ops initConn connInv_init
  obtain ⟨h1, _, _, _, _⟩ := hinv
  refine ⟨rfl, ?_, rfl⟩
  intro t ht
  dsimp only [closeConn] at ht ⊢
  rw [List.count_append]
  have := h1 t ht
  dsimp only [subsTokens] at this
  omega

/-- Claim C5, witness: a connection that registered one subscription (token
0) and then closed has an empty map, exactly one unsubscribe of token 0 and
no extra responses from the cleanup. -/
theorem C5_witness :
    (closeConn (runConn initConn
        [(ClientMessage.call (some (RpcId.str "s1")) ProcType.subscription
            "onMessage",
          DispatchOutcome.observableResult)])).subs = [] ∧
    (closeConn (runConn initConn
        [(ClientMessage.call (some (RpcId.str "s1")) ProcType.subscription
            "onMessage",
          DispatchOutcome.observableResult)])).unsubs.count 0 = 1 ∧
    (closeConn (runConn initConn
        [(ClientMessage.call (some (RpcId.str "s1")) ProcType.subscription
            "onMessage",
          DispatchOutcome.observableResult)])).responses =
      (runConn initConn
        [(ClientMessage.call (some (RpcId.str "s1")) ProcType.subscription
            "onMessage",
          DispatchOutcome.observableResult)]).responses := by
  have h := C5_close_cleanup
    [(ClientMessage.call (some (RpcId.str "s1")) ProcType.subscription
        "onMessage",
      DispatchOutcome.observableResult)]
  exact ⟨h.1, h.2.1 0 (by decide), h.2.2⟩

/-! ## Envelope codec (C6)

The outgoing path (respond) serializes
transformTRPCResponse(config, untransformedJSON) with JSON.stringify; with
the default (identity) transformer the value serialized is the envelope
itself: an object of the shape

    { id, result: { type: 'data', data } }    -- data
    { id, result: { type: 'started' } }       -- started
    { id, result: { type: 'stopped' } }       -- stopped
    { id, error }                             -- error

with id a string, a number or null (the optional jsonrpc member, undefined
throughout this adapter, is dropped by JSON.stringify). JSON text is
modelled by its parse tree, JSON.stringify/JSON.parse being the standard
bijection between values and their canonical text. -/

inductive Json where
  | null
  | bool (b : Bool)
  | num (n : Int)
  | str (s : String)
  | arr (xs : List Json)
  | obj (fields : List (String × Json))

inductive ResultVariant where
  | dataRes (payload : Json)
  | started
  | stopped

/-- A ResponseEnvelope: a result envelope (data / started / stopped) or an
error envelope, each carrying the request id (none = null id). -/
inductive ResponseEnvelope where
  | result (id : Option RpcId) (res : ResultVariant)
  | err (id : Option RpcId) (error : Json)

def encodeRpcId : Option RpcId → Json
  | none => Json.null
  | some (RpcId.str s) => Json.str s
  | some (RpcId.num n) => Json.num n

/-- The outgoing codec path of respond: the envelope as the JSON value
JSON.stringify serializes. -/
def encodeResponseEnvelope : ResponseEnvelope → Json
  | ResponseEnvelope.result id v =>
    Json.obj [("id", encodeRpcId id),
      ("result",
        match v with
        | ResultVariant.started => Json.obj [("type", Json.str "started")]
        | ResultVariant.stopped => Json.obj [("type", Json.str "stopped")]
        | ResultVariant.dataRes p =>
          Json.obj [("type", Json.str "data"), ("data", p)])]
  | ResponseEnvelope.err id e =>
    Json.obj [("id", encodeRpcId id), ("error", e)]

def getField (fields : List (String × Json)) (k : String) : Option Json :=
  match fields with
  | [] => none
  | (k', v) :: rest => if k' = k then some v else getField rest k

def decodeRpcId : Json → Except String (Option RpcId)
  | Json.null => Except.ok none
  | Json.str s => Except.ok (some (RpcId.str s))
  | Json.num n => Except.ok (some (RpcId.num n))
  | _ => Except.error "invalid id"

/-- Modelled from the spec: the incoming codec path for ResponseEnvelope
values (section 4.4: JSON-parse the UTF-8 text, validate the minimal shape,
id present; unrecognized shapes propagate as a parse failure). The
server-side source decodes only request envelopes (parseTRPCMessage in the
message handler); the decoder for response envelopes lives on the client
and is not part of src. -/
def decodeResponseEnvelope (j : Json) : Except String ResponseEnvelope :=
  match j with
  | Json.obj fields =>
    match getField fields "id" with
    | none => Except.error "missing id"
    | some idJ =>
      match decodeRpcId idJ with
      | Except.error e => Except.error e
      | Except.ok id =>
        match getField fields "error" with
        | some e => Except.ok (ResponseEnvelope.err id e)
        | none =>
          match getField fields "result" with
          | some (Json.obj rf) =>
            match getField rf "type" with
            | some (Json.str t) =>
              if t = "started" then
                Except.ok (ResponseEnvelope.result id ResultVariant.started)
              else if t = "stopped" then
                Except.ok (ResponseEnvelope.result id ResultVariant.stopped)
              else if t = "data" then
                match getField rf "data" with
                | some p =>
                  Except.ok (ResponseEnvelope.result id
                    (ResultVariant.dataRes p))
                | none => Except.error "missing data"
              else Except.error "unrecognized result type"
            | _ => Except.error "missing result type"
          | _ => Except.error "missing result"
  | _ => Except.error "not an object"

/-- Claim C6: encoding a ResponseEnvelope on the outgoing codec path and
decoding the bytes on the incoming codec path yields the original envelope,
for every variant (data, started, stopped, error) and every id. -/
theorem C6_envelope_round_trip (e : ResponseEnvelope) :
    decodeResponseEnvelope (encodeResponseEnvelope e) = Except.ok e := by
  cases e with
  | result id v =>
    cases v with
    | dataRes p =>
      cases id with
      | none => rfl
      | some rid => cases rid <;> rfl
    | started =>
      cases id with
      | none => rfl
      | some rid => cases rid <;> rfl
    | stopped =>
      cases id with
      | none => rfl
      | some rid => cases rid <;> rfl
  | err id er =>
    cases id with
    | none => rfl
    | some rid => cases rid <;> rfl

end TU
